import Mathlib

/-!
Shallow embedding of `jpgfromraw` (src/main.rs), covering the IFD walker
`find_largest_embedded_jpeg`, the JPEG extractor `extract_jpeg`, the header
synthesizer `get_app1_bytes`, the file writer `write_jpeg`, and the extension
matching of `process_directory`.

Conventions of the embedding:
- A byte buffer is a `List Nat` of byte values; `byteAt` models slice indexing
  (every read performed by the source is guarded by an `ensure!` bounds check
  before it happens, so the `getD` default is never observed on paths the
  source reaches).
- Rust `usize`/`u32`/`u16` values are `Nat`; on the 64-bit targets the source
  supports, the `try_into()` conversions from `u32` to `usize` are infallible,
  and no arithmetic in the walker can overflow `usize`.
- The unbounded `while next_ifd_offset != 0` loop is modelled with explicit
  fuel: `none` means the fuel ran out before the loop terminated, so
  "the walk terminates" is "some fuel yields a `some` result".
- Rust panics (out-of-bounds slicing in `write_jpeg`) are modelled as `none`.
-/

/-- Embedding of `struct EmbeddedJpegInfo { offset, length, orientation }`. -/
structure EmbeddedJpegInfo where
  offset : Nat
  length : Nat
  orientation : Option Nat
deriving DecidableEq, Repr

/-- `EmbeddedJpegInfo::default()`: all-zero offset and length, no orientation. -/
def EmbeddedJpegInfo.default : EmbeddedJpegInfo :=
  ⟨0, 0, none⟩

/-- Byte access into the buffer (in-bounds on every path the source reaches). -/
def byteAt (buf : List Nat) (i : Nat) : Nat :=
  buf.getD i 0

/-- `LittleEndian::read_u16` / `BigEndian::read_u16` at byte index `i`. -/
def readU16 (buf : List Nat) (isLE : Bool) (i : Nat) : Nat :=
  if isLE then byteAt buf i + 256 * byteAt buf (i + 1)
  else byteAt buf (i + 1) + 256 * byteAt buf i

/-- `LittleEndian::read_u32` / `BigEndian::read_u32` at byte index `i`. -/
def readU32 (buf : List Nat) (isLE : Bool) (i : Nat) : Nat :=
  if isLE then
    byteAt buf i + 256 * byteAt buf (i + 1) + 65536 * byteAt buf (i + 2) +
      16777216 * byteAt buf (i + 3)
  else
    byteAt buf (i + 3) + 256 * byteAt buf (i + 2) + 65536 * byteAt buf (i + 1) +
      16777216 * byteAt buf i

/-- The magic check of `find_largest_embedded_jpeg`: `some true` for the
little-endian magic `II*\0`, `some false` for the big-endian magic `MM\0*`,
`none` when neither matches (the "Not a valid TIFF file" case). -/
def parseMagic (buf : List Nat) : Option Bool :=
  if buf.take 4 = [0x49, 0x49, 0x2A, 0x00] then some true
  else if buf.take 4 = [0x4D, 0x4D, 0x00, 0x2A] then some false
  else none

/-- The per-IFD entry scan of `find_largest_embedded_jpeg`: walks `k` remaining
12-byte entries starting at byte `pos`, threading the `cur_offset`,
`cur_length`, `cur_orientation` candidates; on the first entry at which both
JPEG candidates are known it performs the largest-JPEG update and breaks. -/
def scanEntriesAux (buf : List Nat) (isLE : Bool) :
    Nat → Nat → Option Nat → Option Nat → Option Nat → EmbeddedJpegInfo →
    EmbeddedJpegInfo
  | _, 0, _, _, _, best => best
  | pos, k + 1, cOff, cLen, cOri, best =>
    let tag := readU16 buf isLE pos
    let cOff2 := if tag = 0x201 then some (readU32 buf isLE (pos + 8)) else cOff
    let cLen2 := if tag = 0x202 then some (readU32 buf isLE (pos + 8)) else cLen
    let cOri2 := if tag = 0x112 then some (readU16 buf isLE (pos + 8)) else cOri
    match cOff2, cLen2 with
    | some o, some l => if best.length < l then ⟨o, l, cOri2⟩ else best
    | _, _ => scanEntriesAux buf isLE (pos + 12) k cOff2 cLen2 cOri2 best

/-- The `while next_ifd_offset != 0` loop of `find_largest_embedded_jpeg`,
with explicit fuel (`none` = fuel exhausted before the loop ended). -/
def walkLoop (buf : List Nat) (isLE : Bool) :
    Nat → Nat → EmbeddedJpegInfo → Option (Except String EmbeddedJpegInfo)
  | 0, _, _ => none
  | fuel + 1, offset, best =>
    if offset = 0 then some (.ok best)
    else if buf.length < offset + 2 then some (.error "Invalid IFD offset")
    else
      let n := readU16 buf isLE offset
      if buf.length - (offset + 2) < n * 12 then
        some (.error "Invalid number of IFD entries")
      else
        let best2 := scanEntriesAux buf isLE (offset + 2) n none none none best
        if buf.length - offset < 2 + n * 12 + 4 then
          some (.error "Invalid next IFD offset")
        else
          walkLoop buf isLE fuel (readU32 buf isLE (offset + 2 + n * 12)) best2

/-- Embedding of `find_largest_embedded_jpeg`, with fuel for the IFD loop.
`none` means the source loops beyond the given fuel. -/
def find_largest_embedded_jpeg (buf : List Nat) (fuel : Nat) :
    Option (Except String EmbeddedJpegInfo) :=
  if buf.length < 8 then some (.error "Not enough data for TIFF header")
  else
    match parseMagic buf with
    | none => some (.error "Not a valid TIFF file")
    | some isLE =>
      match walkLoop buf isLE fuel (readU32 buf isLE 4) EmbeddedJpegInfo.default with
      | none => none
      | some (.error e) => some (.error e)
      | some (.ok best) =>
        if best = EmbeddedJpegInfo.default then some (.error "No JPEG data found")
        else if buf.length < best.offset + best.length then
          some (.error "JPEG data exceeds file size")
        else some (.ok best)

/-- Embedding of `extract_jpeg`: the borrowed slice
`&raw_buf[offset..offset + length]` (the advise call has no data effect). -/
def extract_jpeg (buf : List Nat) (info : EmbeddedJpegInfo) : List Nat :=
  (buf.drop info.offset).take info.length

/-- Embedding of `get_app1_bytes`: the synthesized 32-byte APP1 segment, with
the orientation value in little-endian byte order (`to_le_bytes`). -/
def get_app1_bytes (orientation : Nat) : List Nat :=
  [0xff, 0xe1,
   0x00, 0x1e,
   0x45, 0x78, 0x69, 0x66, 0x00, 0x00,
   0x49, 0x49, 0x2A, 0x00,
   0x08, 0x00, 0x00, 0x00,
   0x01, 0x00,
   0x12, 0x01,
   0x03, 0x00,
   0x01, 0x00, 0x00, 0x00,
   orientation % 256, orientation / 256 % 256,
   0x00, 0x00]

/-- Embedding of `write_jpeg` as the byte sequence written to the output file.
The slice `&jpeg_buf[2..]` panics when `jpeg_buf` holds fewer than 2 bytes;
that panic is modelled as `none`. The APP1 block is written only when
`jpeg_info.orientation` is `Some`. -/
def write_jpeg (jpeg_buf : List Nat) (jpeg_info : EmbeddedJpegInfo) :
    Option (List Nat) :=
  if jpeg_buf.length < 2 then none
  else
    some ([0xFF, 0xD8] ++
      (match jpeg_info.orientation with
       | some orient => get_app1_bytes orient
       | none => []) ++
      jpeg_buf.drop 2)

/-- The built-in RAW extension list of `process_directory`, as character
lists (an `OsString` on the supported Unix targets is a byte string; all the
built-in extensions are ASCII). -/
def builtin_extensions : List (List Char) :=
  [['a','r','w'], ['c','r','2'], ['c','r','w'], ['d','n','g'], ['e','r','f'],
   ['k','d','c'], ['m','e','f'], ['m','r','w'], ['n','e','f'], ['n','r','w'],
   ['o','r','f'], ['p','e','f'], ['r','a','f'], ['r','a','w'], ['r','w','2'],
   ['r','w','l'], ['s','r','2'], ['s','r','f'], ['s','r','w'], ['x','3','f']]

/-- The `valid_extensions` set of `process_directory`: each built-in extension
together with its `to_uppercase()` form (on these all-ASCII strings Rust's
`str::to_uppercase` is exactly the per-character ASCII uppercase), plus the
optional caller-supplied extra extension, added as-is. `HashSet` membership
equals list membership. -/
def valid_extensions (extra : Option (List Char)) : List (List Char) :=
  (builtin_extensions.flatMap fun e => [e, e.map Char.toUpper]) ++ extra.toList

/-- The extension test of `process_directory`:
`valid_extensions.contains(ext)` (exact `OsString` comparison, no case
folding at lookup time). -/
def matchesExtension (extra : Option (List Char)) (ext : List Char) : Bool :=
  (valid_extensions extra).contains ext

/-!
Analysis devices (not part of the source translation): a candidate-level view
of the entry scan and of the IFD chain, used to state and prove the claims
about the walker's selection behaviour.
-/

/-- The largest-JPEG update performed at the break of the entry scan:
replace `best` exactly when the candidate's length is strictly larger. -/
def updateLargest (best cand : EmbeddedJpegInfo) : EmbeddedJpegInfo :=
  if best.length < cand.length then cand else best

/-- Fold step over one IFD's scan outcome: an IFD that never had both JPEG
candidates leaves `best` unchanged. -/
def stepCand (best : EmbeddedJpegInfo) (oc : Option EmbeddedJpegInfo) :
    EmbeddedJpegInfo :=
  match oc with
  | some c => updateLargest best c
  | none => best

/-- Candidate view of the entry scan: the `{offset, length, orientation}`
record captured at the break, or `none` when the scan runs through all
entries without ever knowing both JPEG candidates. -/
def scanYieldsAux (buf : List Nat) (isLE : Bool) :
    Nat → Nat → Option Nat → Option Nat → Option Nat →
    Option EmbeddedJpegInfo
  | _, 0, _, _, _ => none
  | pos, k + 1, cOff, cLen, cOri =>
    let tag := readU16 buf isLE pos
    let cOff2 := if tag = 0x201 then some (readU32 buf isLE (pos + 8)) else cOff
    let cLen2 := if tag = 0x202 then some (readU32 buf isLE (pos + 8)) else cLen
    let cOri2 := if tag = 0x112 then some (readU16 buf isLE (pos + 8)) else cOri
    match cOff2, cLen2 with
    | some o, some l => some ⟨o, l, cOri2⟩
    | _, _ => scanYieldsAux buf isLE (pos + 12) k cOff2 cLen2 cOri2

/-- Chain view of the IFD walk: `some l` when, within `fuel` IFDs, the chain
reaches the terminating offset 0 with every bounds check passing, where `l`
lists each visited IFD's scan outcome in chain order; `none` otherwise. -/
def chainScan (buf : List Nat) (isLE : Bool) :
    Nat → Nat → Option (List (Option EmbeddedJpegInfo))
  | 0, _ => none
  | fuel + 1, offset =>
    if offset = 0 then some []
    else if buf.length < offset + 2 then none
    else
      let n := readU16 buf isLE offset
      if buf.length - (offset + 2) < n * 12 then none
      else if buf.length - offset < 2 + n * 12 + 4 then none
      else
        match chainScan buf isLE fuel (readU32 buf isLE (offset + 2 + n * 12)) with
        | none => none
        | some l => some (scanYieldsAux buf isLE (offset + 2) n none none none :: l)

/-!
Concrete buffers used as witnesses and counterexamples.
-/

/-- A 14-byte little-endian TIFF whose single IFD has zero entries and whose
next-IFD pointer points back at the IFD itself (offset 8): a cyclic chain. -/
def bufCyclic : List Nat :=
  [0x49, 0x49, 0x2A, 0x00, 0x08, 0, 0, 0, 0x00, 0x00, 0x08, 0, 0, 0]

/-- Little-endian TIFF, one IFD with entries Orientation=6, JPEG offset=50,
JPEG length=4; bytes 50..54 hold the embedded JPEG `FF D8 FF D9`. -/
def bufC3 : List Nat :=
  [0x49, 0x49, 0x2A, 0x00, 0x08, 0, 0, 0,
   0x03, 0x00,
   0x12, 0x01, 0x03, 0x00, 0x01, 0x00, 0x00, 0x00, 0x06, 0x00, 0x00, 0x00,
   0x01, 0x02, 0x04, 0x00, 0x01, 0x00, 0x00, 0x00, 0x32, 0x00, 0x00, 0x00,
   0x02, 0x02, 0x04, 0x00, 0x01, 0x00, 0x00, 0x00, 0x04, 0x00, 0x00, 0x00,
   0x00, 0x00, 0x00, 0x00,
   0xFF, 0xD8, 0xFF, 0xD9]

/-- Like `bufC3` but with the Orientation entry placed after the two JPEG
pointer entries in entry order. -/
def bufC5 : List Nat :=
  [0x49, 0x49, 0x2A, 0x00, 0x08, 0, 0, 0,
   0x03, 0x00,
   0x01, 0x02, 0x04, 0x00, 0x01, 0x00, 0x00, 0x00, 0x32, 0x00, 0x00, 0x00,
   0x02, 0x02, 0x04, 0x00, 0x01, 0x00, 0x00, 0x00, 0x04, 0x00, 0x00, 0x00,
   0x12, 0x01, 0x03, 0x00, 0x01, 0x00, 0x00, 0x00, 0x06, 0x00, 0x00, 0x00,
   0x00, 0x00, 0x00, 0x00,
   0xFF, 0xD8, 0xFF, 0xD9]

/-- Well-formed little-endian TIFF whose single IFD carries only an
Orientation entry: no JPEG pointer tags anywhere. -/
def bufC8 : List Nat :=
  [0x49, 0x49, 0x2A, 0x00, 0x08, 0, 0, 0,
   0x01, 0x00,
   0x12, 0x01, 0x03, 0x00, 0x01, 0x00, 0x00, 0x00, 0x06, 0x00, 0x00, 0x00,
   0x00, 0x00, 0x00, 0x00]

/-- Little-endian TIFF whose single IFD stores JPEG offset 38 and JPEG
length 1; byte 38 is the 1-byte "embedded JPEG". -/
def bufC10 : List Nat :=
  [0x49, 0x49, 0x2A, 0x00, 0x08, 0, 0, 0,
   0x02, 0x00,
   0x01, 0x02, 0x00, 0x00, 0x00, 0x00, 0x00, 0x00, 0x26, 0x00, 0x00, 0x00,
   0x02, 0x02, 0x00, 0x00, 0x00, 0x00, 0x00, 0x00, 0x01, 0x00, 0x00, 0x00,
   0x00, 0x00, 0x00, 0x00,
   0xFF]

/-- Little-endian TIFF with two IFDs: the first yields JPEG candidate
(offset 68, length 3), the second (offset 71, length 5). -/
def bufC4 : List Nat :=
  [0x49, 0x49, 0x2A, 0x00, 0x08, 0, 0, 0,
   0x02, 0x00,
   0x01, 0x02, 0x00, 0x00, 0x00, 0x00, 0x00, 0x00, 0x44, 0x00, 0x00, 0x00,
   0x02, 0x02, 0x00, 0x00, 0x00, 0x00, 0x00, 0x00, 0x03, 0x00, 0x00, 0x00,
   0x26, 0x00, 0x00, 0x00,
   0x02, 0x00,
   0x01, 0x02, 0x00, 0x00, 0x00, 0x00, 0x00, 0x00, 0x47, 0x00, 0x00, 0x00,
   0x02, 0x02, 0x00, 0x00, 0x00, 0x00, 0x00, 0x00, 0x05, 0x00, 0x00, 0x00,
   0x00, 0x00, 0x00, 0x00,
   1, 2, 3, 4, 5, 6, 7, 8]

/-- Like `bufC10` but the JPEG-length entry claims 100 bytes: every read during
parsing is in bounds, yet `offset + length` (138) exceeds the 39-byte buffer. -/
def bufC7 : List Nat :=
  [0x49, 0x49, 0x2A, 0x00, 0x08, 0, 0, 0,
   0x02, 0x00,
   0x01, 0x02, 0x00, 0x00, 0x00, 0x00, 0x00, 0x00, 0x26, 0x00, 0x00, 0x00,
   0x02, 0x02, 0x00, 0x00, 0x00, 0x00, 0x00, 0x00, 0x64, 0x00, 0x00, 0x00,
   0x00, 0x00, 0x00, 0x00,
   0xFF]

/-!
Structural lemmas about the walker.
-/

/-- The entry scan equals the largest-JPEG update applied to the scan's
candidate outcome. -/
theorem scanEntriesAux_eq (buf : List Nat) (isLE : Bool) :
    ∀ k pos cOff cLen cOri best,
    scanEntriesAux buf isLE pos k cOff cLen cOri best =
      stepCand best (scanYieldsAux buf isLE pos k cOff cLen cOri) := by
  intro k
  induction k with
  | zero => intro pos cOff cLen cOri best; rfl
  | succ k ih =>
    intro pos cOff cLen cOri best
    simp only [scanEntriesAux, scanYieldsAux]
    cases hOff : (if readU16 buf isLE pos = 0x201 then some (readU32 buf isLE (pos + 8)) else cOff) with
    | none =>
      cases hLen : (if readU16 buf isLE pos = 0x202 then some (readU32 buf isLE (pos + 8)) else cLen) with
      | none => exact ih _ _ _ _ _
      | some l => exact ih _ _ _ _ _
    | some o =>
      cases hLen : (if readU16 buf isLE pos = 0x202 then some (readU32 buf isLE (pos + 8)) else cLen) with
      | none => exact ih _ _ _ _ _
      | some l => simp [stepCand, updateLargest]

/-- When the chain view sees the whole IFD chain, the walk loop succeeds and
its result is the fold of the per-IFD updates over the chain's candidates. -/
theorem walkLoop_eq_foldl (buf : List Nat) (isLE : Bool) :
    ∀ fuel offset l best, chainScan buf isLE fuel offset = some l →
    walkLoop buf isLE fuel offset best = some (.ok (l.foldl stepCand best)) := by
  intro fuel
  induction fuel with
  | zero => intro offset l best h; simp [chainScan] at h
  | succ fuel ih =>
    intro offset l best h
    simp only [chainScan] at h
    simp only [walkLoop]
    by_cases h0 : offset = 0
    · rw [if_pos h0] at h ⊢
      injection h with h
      subst h
      rfl
    · rw [if_neg h0] at h ⊢
      by_cases h1 : buf.length < offset + 2
      · rw [if_pos h1] at h; exact absurd h (by simp)
      · rw [if_neg h1] at h ⊢
        by_cases h2 : buf.length - (offset + 2) < readU16 buf isLE offset * 12
        · rw [if_pos h2] at h; exact absurd h (by simp)
        · rw [if_neg h2] at h ⊢
          by_cases h3 : buf.length - offset < 2 + readU16 buf isLE offset * 12 + 4
          · rw [if_pos h3] at h; exact absurd h (by simp)
          · rw [if_neg h3] at h ⊢
            cases hrec : chainScan buf isLE fuel
                (readU32 buf isLE (offset + 2 + readU16 buf isLE offset * 12)) with
            | none => rw [hrec] at h; exact absurd h (by simp)
            | some l2 =>
              rw [hrec] at h
              injection h with h
              subst h
              rw [scanEntriesAux_eq]
              rw [ih _ _ _ hrec]
              rfl

/-- Folding over a chain in which no IFD produced a candidate leaves the
running best untouched. -/
theorem foldl_stepCand_none (l : List (Option EmbeddedJpegInfo)) (b : EmbeddedJpegInfo)
    (h : ∀ x ∈ l, x = none) : l.foldl stepCand b = b := by
  induction l generalizing b with
  | nil => rfl
  | cons x xs ih =>
    have hx := h x (by simp)
    subst hx
    exact ih b (fun y hy => h y (by simp [hy]))

/-- Candidates no longer than the running best never replace it. -/
theorem foldl_updateLargest_le (cands : List EmbeddedJpegInfo) (b : EmbeddedJpegInfo)
    (h : ∀ c ∈ cands, c.length ≤ b.length) : cands.foldl updateLargest b = b := by
  induction cands with
  | nil => rfl
  | cons c cs ih =>
    have hc : updateLargest b c = b := by
      unfold updateLargest
      rw [if_neg (by have := h c (by simp); omega)]
    rw [List.foldl_cons, hc]
    exact ih (fun c' hc' => h c' (by simp [hc']))

/-- The fold of the largest-JPEG update selects the candidate whose length
strictly dominates every other candidate's, wherever it sits in the chain. -/
theorem foldl_updateLargest_max (cands : List EmbeddedJpegInfo) :
    ∀ (b : EmbeddedJpegInfo) (i : Nat) (hi : i < cands.length),
    b.length < (cands.get ⟨i, hi⟩).length →
    (∀ j, (hj : j < cands.length) → j ≠ i →
      (cands.get ⟨j, hj⟩).length < (cands.get ⟨i, hi⟩).length) →
    cands.foldl updateLargest b = cands.get ⟨i, hi⟩ := by
  induction cands with
  | nil => intro b i hi; exact absurd hi (by simp)
  | cons c cs ih =>
    intro b i hi hb hmax
    cases i with
    | zero =>
      have hc : updateLargest b c = c := by
        unfold updateLargest
        rw [if_pos (by simpa using hb)]
      rw [List.foldl_cons, hc]
      apply foldl_updateLargest_le
      intro c' hc'
      obtain ⟨⟨k, hk⟩, rfl⟩ := List.mem_iff_get.mp hc'
      have := hmax (k + 1) (by simpa using Nat.succ_lt_succ hk) (by omega)
      simp only [List.get] at this ⊢
      omega
    | succ i' =>
      have hi' : i' < cs.length := by simpa using Nat.lt_of_succ_lt_succ hi
      have hc0 : c.length < (cs.get ⟨i', hi'⟩).length := by
        have := hmax 0 (by simp) (by omega)
        simpa using this
      have hb2 : (updateLargest b c).length < (cs.get ⟨i', hi'⟩).length := by
        unfold updateLargest
        split <;> simp_all
      rw [List.foldl_cons]
      have := ih (updateLargest b c) i' hi' (by simpa using hb2)
        (fun j hj hne => by
          have := hmax (j + 1) (by simpa using Nat.succ_lt_succ hj) (by omega)
          simpa using this)
      simpa using this

/-- `stepCand` over a present candidate is the largest-JPEG update. -/
theorem stepCand_some (b c : EmbeddedJpegInfo) :
    stepCand b (some c) = updateLargest b c := rfl

/-- One fold step either keeps the best or strictly increases its length. -/
theorem stepCand_length (best : EmbeddedJpegInfo) (oc : Option EmbeddedJpegInfo) :
    stepCand best oc = best ∨ best.length < (stepCand best oc).length := by
  cases oc with
  | none => exact Or.inl rfl
  | some c =>
    simp only [stepCand, updateLargest]
    split
    · right; assumption
    · exact Or.inl rfl

/-- A successful walk returns either its starting best or a record whose
length strictly exceeds the starting best's. -/
theorem walkLoop_ok_length (buf : List Nat) (isLE : Bool) :
    ∀ fuel offset best r, walkLoop buf isLE fuel offset best = some (.ok r) →
    r = best ∨ best.length < r.length := by
  intro fuel
  induction fuel with
  | zero => intro offset best r h; simp [walkLoop] at h
  | succ fuel ih =>
    intro offset best r h
    simp only [walkLoop] at h
    by_cases h0 : offset = 0
    · rw [if_pos h0] at h
      injection h with h
      injection h with h
      exact Or.inl h.symm
    · rw [if_neg h0] at h
      by_cases h1 : buf.length < offset + 2
      · rw [if_pos h1] at h; exact absurd h (by simp)
      · rw [if_neg h1] at h
        by_cases h2 : buf.length - (offset + 2) < readU16 buf isLE offset * 12
        · rw [if_pos h2] at h; exact absurd h (by simp)
        · rw [if_neg h2] at h
          by_cases h3 : buf.length - offset < 2 + readU16 buf isLE offset * 12 + 4
          · rw [if_pos h3] at h; exact absurd h (by simp)
          · rw [if_neg h3] at h
            have hstep := ih _ _ _ h
            rw [scanEntriesAux_eq] at hstep
            rcases hstep with hstep | hstep
            · rw [hstep]
              rcases stepCand_length best
                  (scanYieldsAux buf isLE (offset + 2) (readU16 buf isLE offset)
                    none none none) with hs | hs
              · exact Or.inl hs
              · exact Or.inr hs
            · rcases stepCand_length best
                  (scanYieldsAux buf isLE (offset + 2) (readU16 buf isLE offset)
                    none none none) with hs | hs
              · rw [hs] at hstep; exact Or.inr hstep
              · right; omega

/-- Inversion for a successful `find_largest_embedded_jpeg`: the header was
long enough, a magic matched, the walk terminated with exactly this record,
and the record passed both final `ensure!` checks. -/
theorem find_ok_elim (buf : List Nat) (fuel : Nat) (info : EmbeddedJpegInfo)
    (h : find_largest_embedded_jpeg buf fuel = some (.ok info)) :
    8 ≤ buf.length ∧ info ≠ EmbeddedJpegInfo.default ∧
      info.offset + info.length ≤ buf.length ∧
      ∃ isLE, parseMagic buf = some isLE ∧
        walkLoop buf isLE fuel (readU32 buf isLE 4) EmbeddedJpegInfo.default =
          some (.ok info) := by
  unfold find_largest_embedded_jpeg at h
  split at h
  · exact absurd h (by simp)
  next h8 =>
    split at h
    next hm => exact absurd h (by simp)
    next isLE hm =>
      split at h
      next hw => exact absurd h (by simp)
      next e hw => exact absurd h (by simp)
      next best hw =>
        split at h
        next hd => exact absurd h (by simp)
        next hd =>
          split at h
          next hb => exact absurd h (by simp)
          next hb =>
            injection h with h
            injection h with h
            subst h
            exact ⟨by omega, hd, by omega, isLE, hm, hw⟩

/-- On `bufCyclic` one loop iteration returns to the very same loop state:
offset 8, unchanged best. -/
theorem walkLoop_cyclic_step (fuel : Nat) (best : EmbeddedJpegInfo) :
    walkLoop bufCyclic true (fuel + 1) 8 best =
      walkLoop bufCyclic true fuel 8 best := rfl

/-- No amount of fuel makes the walk over `bufCyclic` leave offset 8. -/
theorem walkLoop_cyclic_none : ∀ fuel best, walkLoop bufCyclic true fuel 8 best = none := by
  intro fuel
  induction fuel with
  | zero => intro best; rfl
  | succ fuel ih => intro best; rw [walkLoop_cyclic_step]; exact ih best

/-!
Claim theorems.
-/

/-- Claim C1, counterexample: with no orientation found, `write_jpeg` emits
only the SOI marker and the body — the output for the 3-byte body `FF D8 AA`
is `FF D8 AA` itself, which is not SOI followed by the APP1 block encoding
orientation 1 followed by the body. The APP1 block is omitted, refuting the
claim that it is never omitted. -/
theorem C1_counterexample :
    write_jpeg [0xFF, 0xD8, 0xAA] ⟨38, 3, none⟩ = some [0xFF, 0xD8, 0xAA] ∧
    [0xFF, 0xD8, 0xAA] ≠ [0xFF, 0xD8] ++ get_app1_bytes 1 ++ [0xAA] := by
  constructor
  · rfl
  · decide

/-- Claim C1, amended: `write_jpeg` emits the synthesized APP1 block only when
an Orientation tag was found, encoding that orientation; when none was found
the APP1 block is omitted entirely and the output is the SOI marker followed
by the body with its own SOI stripped. -/
theorem C1_amended_app1_only_when_oriented (jpeg_buf : List Nat)
    (ori : Option Nat) (off len : Nat) (h2 : 2 ≤ jpeg_buf.length) :
    (ori = none →
      write_jpeg jpeg_buf ⟨off, len, ori⟩ = some ([0xFF, 0xD8] ++ jpeg_buf.drop 2)) ∧
    (∀ o, ori = some o →
      write_jpeg jpeg_buf ⟨off, len, ori⟩ =
        some ([0xFF, 0xD8] ++ get_app1_bytes o ++ jpeg_buf.drop 2)) := by
  constructor
  · intro hn
    subst hn
    simp [write_jpeg, Nat.not_lt.mpr h2]
  · intro o ho
    subst ho
    simp [write_jpeg, Nat.not_lt.mpr h2]

/-- Claim C1, witness for the amended theorem at the body `FF D8 AA` with no
orientation. -/
theorem C1_witness :
    write_jpeg [0xFF, 0xD8, 0xAA] ⟨38, 3, none⟩ =
      some ([0xFF, 0xD8] ++ [0xFF, 0xD8, 0xAA].drop 2) :=
  (C1_amended_app1_only_when_oriented [0xFF, 0xD8, 0xAA] none 38 3 (by decide)).1 rfl

/-- Claim C2: refuted — `find_largest_embedded_jpeg` does not terminate on
every buffer. On `bufCyclic`, whose single zero-entry IFD names itself as the
next IFD, the loop revisits offset 8 forever: no amount of fuel produces a
result, so the IFD-chain walk is not total. -/
theorem C2_cyclic_chain_loops_forever :
    ∀ fuel, find_largest_embedded_jpeg bufCyclic fuel = none := by
  intro fuel
  simp only [find_largest_embedded_jpeg,
    show parseMagic bufCyclic = some true from rfl,
    show readU32 bufCyclic true 4 = 8 from rfl,
    walkLoop_cyclic_none fuel EmbeddedJpegInfo.default]
  simp [bufCyclic]

/-- Claim C3: for any buffer on which the walker succeeds with orientation 6,
with located JPEG bytes `J` starting `FF D8`, the writer's output is exactly
SOI, then the 32-byte APP1 block encoding orientation 6, then `J` minus its
own 2-byte SOI. -/
theorem C3_roundtrip_orientation6 (buf : List Nat) (fuel : Nat)
    (info : EmbeddedJpegInfo) (J : List Nat)
    (hfind : find_largest_embedded_jpeg buf fuel = some (.ok info))
    (hori : info.orientation = some 6)
    (hJ : J = extract_jpeg buf info)
    (hsoi : J.take 2 = [0xFF, 0xD8]) :
    write_jpeg J info = some ([0xFF, 0xD8] ++ get_app1_bytes 6 ++ J.drop 2) ∧
    (get_app1_bytes 6).length = 32 := by
  have hlen : 2 ≤ J.length := by
    have := congrArg List.length hsoi
    simp [List.length_take] at this
    omega
  constructor
  · cases info with
    | mk o l r =>
      simp only at hori
      subst hori
      simp [write_jpeg, Nat.not_lt.mpr hlen]
  · rfl

/-- Claim C3, witness on `bufC3`: walker returns offset 50, length 4,
orientation 6, and the writer emits SOI + APP1(6) + `FF D9`. -/
theorem C3_witness :
    write_jpeg [0xFF, 0xD8, 0xFF, 0xD9] ⟨50, 4, some 6⟩ =
      some ([0xFF, 0xD8] ++ get_app1_bytes 6 ++ [0xFF, 0xD8, 0xFF, 0xD9].drop 2) ∧
    (get_app1_bytes 6).length = 32 :=
  C3_roundtrip_orientation6 bufC3 2 ⟨50, 4, some 6⟩ [0xFF, 0xD8, 0xFF, 0xD9]
    (by rfl) rfl (by rfl) (by rfl)

/-- Claim C4: when the IFD chain is fully walked and every IFD yields a JPEG
candidate, the walker returns the candidate whose length strictly exceeds all
the others', at whatever position in the chain it occurs — so for two IFDs
with different lengths, the larger wins regardless of traversal order. -/
theorem C4_largest_length_wins (buf : List Nat) (isLE : Bool) (fuel : Nat)
    (cands : List EmbeddedJpegInfo) (i : Nat) (hi : i < cands.length)
    (hlen : 8 ≤ buf.length) (hmagic : parseMagic buf = some isLE)
    (hchain : chainScan buf isLE fuel (readU32 buf isLE 4) = some (cands.map some))
    (h2 : 2 ≤ cands.length)
    (hmax : ∀ j, (hj : j < cands.length) → j ≠ i →
      (cands.get ⟨j, hj⟩).length < (cands.get ⟨i, hi⟩).length)
    (hbound : (cands.get ⟨i, hi⟩).offset + (cands.get ⟨i, hi⟩).length ≤ buf.length) :
    find_largest_embedded_jpeg buf fuel = some (.ok (cands.get ⟨i, hi⟩)) := by
  have hw := walkLoop_eq_foldl buf isLE fuel (readU32 buf isLE 4) (cands.map some)
    EmbeddedJpegInfo.default hchain
  rw [List.foldl_map] at hw
  simp only [stepCand_some] at hw
  have hpos : EmbeddedJpegInfo.default.length < (cands.get ⟨i, hi⟩).length := by
    have hj01 : (if i = 0 then 1 else 0) < cands.length := by
      split <;> omega
    have hne : (if i = 0 then 1 else 0) ≠ i := by
      split <;> omega
    have := hmax _ hj01 hne
    simp only [EmbeddedJpegInfo.default]
    omega
  rw [foldl_updateLargest_max cands EmbeddedJpegInfo.default i hi hpos hmax] at hw
  have hnd : cands.get ⟨i, hi⟩ ≠ EmbeddedJpegInfo.default := by
    intro e
    rw [e] at hpos
    exact absurd hpos (by simp)
  simp only [find_largest_embedded_jpeg, hmagic, hw]
  rw [if_neg (by omega), if_neg hnd, if_neg (by omega)]

/-- Claim C4, witness on `bufC4`: chain order is length 3 then length 5; the
walker returns the length-5 descriptor from the second IFD. -/
theorem C4_witness :
    find_largest_embedded_jpeg bufC4 3 = some (.ok ⟨71, 5, none⟩) :=
  C4_largest_length_wins bufC4 true 3 [⟨68, 3, none⟩, ⟨71, 5, none⟩] 1 (by decide)
    (by decide) rfl (by rfl) (by decide)
    (fun j hj hne => by
      cases j with
      | zero => exact (by decide : (3 : Nat) < 5)
      | succ j' =>
        cases j' with
        | zero => exact absurd rfl hne
        | succ j'' =>
          have hcon : j'' + 1 + 1 < 2 := by simpa using hj
          exact absurd hcon (by omega))
    (by decide)

/-- Claim C5: inside one IFD the scan stops at the entry that completes the
JPEG offset/length pair; whatever the remaining entries hold — including an
Orientation entry — the captured orientation is the one known at the break
(none when the two pointer tags come first). Concretely, on `bufC5`, whose
Orientation entry follows the two pointer tags, the walker reports no
orientation. -/
theorem C5_early_break_misses_orientation :
    (∀ (buf : List Nat) (isLE : Bool) (pos n o l : Nat) (best : EmbeddedJpegInfo),
      2 ≤ n →
      readU16 buf isLE pos = 0x201 →
      readU16 buf isLE (pos + 12) = 0x202 →
      readU32 buf isLE (pos + 8) = o →
      readU32 buf isLE (pos + 12 + 8) = l →
      best.length < l →
      scanEntriesAux buf isLE pos n none none none best = ⟨o, l, none⟩) ∧
    find_largest_embedded_jpeg bufC5 2 = some (.ok ⟨50, 4, none⟩) := by
  constructor
  · intro buf isLE pos n o l best hn h1 h2 ho hl hbig
    obtain ⟨k, rfl⟩ : ∃ k, n = k + 2 := ⟨n - 2, by omega⟩
    simp only [scanEntriesAux, h1, h2, ho, hl]
    norm_num
    intro hcon
    exact absurd hbig (Nat.not_lt.mpr hcon)
  · rfl

/-- Claim C5, witness: the scan of `bufC5`'s IFD (3 entries starting at byte
10) breaks after the second entry with orientation `none`, although entry 3
is an Orientation entry. -/
theorem C5_witness :
    scanEntriesAux bufC5 true 10 3 none none none EmbeddedJpegInfo.default =
      ⟨50, 4, none⟩ :=
  C5_early_break_misses_orientation.1 bufC5 true 10 3 50 4 EmbeddedJpegInfo.default
    (by decide) rfl rfl rfl rfl (by decide)

/-- Claim C6: buffers shorter than 8 bytes fail with the "not enough data"
error; buffers of at least 8 bytes whose first 4 bytes match neither magic
fail with the "not a valid TIFF" error; exactly the little-endian magic
`II*\0` selects little-endian reads and exactly `MM\0*` selects big-endian
reads. -/
theorem C6_header_validation :
    (∀ (buf : List Nat) (fuel : Nat), buf.length < 8 →
      find_largest_embedded_jpeg buf fuel =
        some (.error "Not enough data for TIFF header")) ∧
    (∀ (buf : List Nat) (fuel : Nat), 8 ≤ buf.length → parseMagic buf = none →
      find_largest_embedded_jpeg buf fuel = some (.error "Not a valid TIFF file")) ∧
    (∀ buf : List Nat, parseMagic buf = none ↔
      ¬(buf.take 4 = [0x49, 0x49, 0x2A, 0x00] ∨
        buf.take 4 = [0x4D, 0x4D, 0x00, 0x2A])) ∧
    (∀ buf : List Nat, parseMagic buf = some true ↔
      buf.take 4 = [0x49, 0x49, 0x2A, 0x00]) ∧
    (∀ buf : List Nat, parseMagic buf = some false ↔
      buf.take 4 = [0x4D, 0x4D, 0x00, 0x2A]) := by
  refine ⟨?_, ?_, ?_, ?_, ?_⟩
  · intro buf fuel h
    unfold find_largest_embedded_jpeg
    rw [if_pos h]
  · intro buf fuel h8 hm
    unfold find_largest_embedded_jpeg
    rw [if_neg (by omega), hm]
  · intro buf
    unfold parseMagic
    split_ifs with ha hb <;> simp_all
  · intro buf
    unfold parseMagic
    split_ifs with ha hb <;> simp_all
  · intro buf
    unfold parseMagic
    split_ifs with ha hb <;> simp_all

/-- Claim C6, witness: a 1-byte buffer and an 8-byte all-zero buffer. -/
theorem C6_witness :
    find_largest_embedded_jpeg [0] 1 =
      some (.error "Not enough data for TIFF header") ∧
    find_largest_embedded_jpeg [0, 0, 0, 0, 0, 0, 0, 0] 1 =
      some (.error "Not a valid TIFF file") :=
  ⟨C6_header_validation.1 [0] 1 (by decide),
   C6_header_validation.2.1 [0, 0, 0, 0, 0, 0, 0, 0] 1 (by decide) (by rfl)⟩

/-- Claim C7: when the walk's winning candidate has `offset + length` beyond
the buffer, the walker returns the "JPEG data exceeds file size" error rather
than the descriptor; and every descriptor it does return is non-default with
`offset + length` within the buffer. -/
theorem C7_oob_descriptor_rejected :
    (∀ (buf : List Nat) (isLE : Bool) (fuel : Nat) (best : EmbeddedJpegInfo),
      8 ≤ buf.length → parseMagic buf = some isLE →
      walkLoop buf isLE fuel (readU32 buf isLE 4) EmbeddedJpegInfo.default =
        some (.ok best) →
      best ≠ EmbeddedJpegInfo.default →
      buf.length < best.offset + best.length →
      find_largest_embedded_jpeg buf fuel =
        some (.error "JPEG data exceeds file size")) ∧
    (∀ (buf : List Nat) (fuel : Nat) (info : EmbeddedJpegInfo),
      find_largest_embedded_jpeg buf fuel = some (.ok info) →
      info.offset + info.length ≤ buf.length ∧ info ≠ EmbeddedJpegInfo.default) := by
  constructor
  · intro buf isLE fuel best h8 hmagic hw hnd hoob
    simp only [find_largest_embedded_jpeg, hmagic, hw]
    rw [if_neg (by omega), if_neg hnd, if_pos hoob]
  · intro buf fuel info h
    obtain ⟨-, hnd, hb, -⟩ := find_ok_elim buf fuel info h
    exact ⟨hb, hnd⟩

/-- Claim C7, witness on `bufC7`: every read during parsing is in bounds, the
winning candidate is offset 38 length 100, and the walker reports the
"exceeds file size" error. -/
theorem C7_witness :
    find_largest_embedded_jpeg bufC7 2 =
      some (.error "JPEG data exceeds file size") :=
  C7_oob_descriptor_rejected.1 bufC7 true 2 ⟨38, 100, none⟩ (by decide) rfl
    (by rfl) (by decide) (by decide)

/-- Claim C8: on a buffer whose IFD chain is fully and cleanly walked while
no IFD ever yields both JPEG candidates, the walker fails with
"No JPEG data found". -/
theorem C8_no_jpeg_found_error (buf : List Nat) (isLE : Bool) (fuel : Nat)
    (l : List (Option EmbeddedJpegInfo))
    (hlen : 8 ≤ buf.length) (hmagic : parseMagic buf = some isLE)
    (hchain : chainScan buf isLE fuel (readU32 buf isLE 4) = some l)
    (hno : ∀ x ∈ l, x = none) :
    find_largest_embedded_jpeg buf fuel = some (.error "No JPEG data found") := by
  have hw := walkLoop_eq_foldl buf isLE fuel (readU32 buf isLE 4) l
    EmbeddedJpegInfo.default hchain
  rw [foldl_stepCand_none l _ hno] at hw
  simp only [find_largest_embedded_jpeg, hmagic, hw]
  simpa using hlen

/-- Claim C8, witness on `bufC8`: its single IFD holds only an Orientation
entry, and the walker reports "No JPEG data found". -/
theorem C8_witness :
    find_largest_embedded_jpeg bufC8 2 = some (.error "No JPEG data found") :=
  C8_no_jpeg_found_error bufC8 true 2 [none] (by decide) rfl (by rfl)
    (by intro x hx; simpa using hx)

/-- Claim C9, counterexample: the mixed-case variant `Arw` of the built-in
extension `arw` is not matched by the scanner's extension test, while the
all-lowercase and all-uppercase variants are — refuting the claim that every
case variant is enumerated. -/
theorem C9_counterexample :
    matchesExtension none ['A', 'r', 'w'] = false ∧
    matchesExtension none ['a', 'r', 'w'] = true ∧
    matchesExtension none ['A', 'R', 'W'] = true := by
  refine ⟨?_, ?_, ?_⟩ <;> decide

/-- Claim C9, amended: the scanner matches an extension exactly when it is
byte-for-byte a built-in extension, the all-uppercase form of a built-in
extension, or the caller-supplied extra extension; comparison at lookup is
exact, so other case variants are not matched. -/
theorem C9_amended_exact_case_matching :
    ∀ (extra : Option (List Char)) (s : List Char),
      matchesExtension extra s = true ↔
        ((∃ e ∈ builtin_extensions, s = e ∨ s = e.map Char.toUpper) ∨
          extra = some s) := by
  intro extra s
  simp [matchesExtension, valid_extensions]

/-- Claim C10: the walker guarantees only `1 ≤ length` for a returned
descriptor; `write_jpeg` panics (models as `none`) whenever the extracted
body is shorter than 2 bytes; and on `bufC10`, whose JPEG-length entry is 1,
the walker succeeds with length 1 and the writer then panics. -/
theorem C10_write_jpeg_panics_on_short_body :
    (∀ (buf : List Nat) (fuel : Nat) (info : EmbeddedJpegInfo),
      find_largest_embedded_jpeg buf fuel = some (.ok info) → 1 ≤ info.length) ∧
    (∀ (jpeg_buf : List Nat) (info : EmbeddedJpegInfo),
      jpeg_buf.length < 2 → write_jpeg jpeg_buf info = none) ∧
    find_largest_embedded_jpeg bufC10 2 = some (.ok ⟨38, 1, none⟩) ∧
    write_jpeg (extract_jpeg bufC10 ⟨38, 1, none⟩) ⟨38, 1, none⟩ = none := by
  refine ⟨?_, ?_, by rfl, by rfl⟩
  · intro buf fuel info h
    obtain ⟨-, hnd, -, isLE, -, hw⟩ := find_ok_elim buf fuel info h
    rcases walkLoop_ok_length buf isLE fuel (readU32 buf isLE 4)
        EmbeddedJpegInfo.default info hw with hr | hr
    · exact absurd hr hnd
    · simpa [EmbeddedJpegInfo.default] using hr
  · intro jpeg_buf info h
    unfold write_jpeg
    rw [if_pos h]

/-- Claim C10, witness: the 1-byte extracted body makes `write_jpeg` panic. -/
theorem C10_witness : write_jpeg [0xFF] ⟨38, 1, none⟩ = none :=
  C10_write_jpeg_panics_on_short_body.2.1 [0xFF] ⟨38, 1, none⟩ (by decide)
